import Mathlib

/-!
# Verification of the TabularOrderForm extraction pipeline

A shallow embedding, in Lean 4, of the order-PDF processing logic of
`streamlit_app.py`: the heuristic customer/date extractor
(`extract_customer_info`), the line-item flattener (`process_line_items`),
the summary calculator (`calculate_summary_stats`), and the CSV export of
the order summary, together with theorems settling the specification
claims about them.

Modelling conventions:
* Python strings are Lean `String`s, handled mostly through their
  underlying `List Char`; only ASCII case mapping is modelled.
* A pandas dataframe is a list of column names plus a list of rows of
  cells; a cell is `NaN`, a string, or an integer.  `tabula.read_pdf`
  gives each table the default integer index, so row labels are
  positions.
* Machine floats that the source uses only as exact small decimals
  (`0.3`, `0.5`) are replaced by exact integer comparisons; these agree
  with the IEEE computation for all relevant integer operands.
  Numeric cell values and their sums are modelled exactly by finite
  decimals (`Dec`), with bridge lemmas to rational arithmetic.
* The regular-expression searches of the source are embedded as
  pattern-specific matchers with Python `re.search` semantics (leftmost
  match, greedy quantifiers with backtracking), specialised to the fixed
  patterns that appear in the source.
-/

/-! ## Character and string utilities -/

/-- Python `\s` (ASCII range): the whitespace class of `re`. -/
def isPySpace (c : Char) : Bool :=
  c = ' ' || c = '\t' || c = '\n' || c = '\r' || c = '\x0b' || c = '\x0c'

/-- The character class `[:\s]` used by the `Customer:`-style patterns. -/
def isColonSpace (c : Char) : Bool :=
  c = ':' || isPySpace c

/-- The characters excluded by `[^\n\r]`. -/
def isNL (c : Char) : Bool :=
  c = '\n' || c = '\r'

/-- Python `str.strip()`: drop leading and trailing whitespace. -/
def pyStrip (s : String) : String :=
  String.mk ((s.data.dropWhile isPySpace).reverse.dropWhile isPySpace).reverse

/-- Python `str.lower()` (ASCII). -/
def pyLower (s : String) : String :=
  String.mk (s.data.map Char.toLower)

/-- Does `pat` occur at the head of `s`? -/
def listStarts : List Char → List Char → Bool
  | [], _ => true
  | _ :: _, [] => false
  | a :: as, b :: bs => a = b && listStarts as bs

/-- Does `pat` occur anywhere in `s`?  (Python `pat in s`.) -/
def listHasSub (pat : List Char) : List Char → Bool
  | [] => pat.isEmpty
  | c :: rest => listStarts pat (c :: rest) || listHasSub pat rest

/-- Python substring test `needle in hay`. -/
def pySubstr (needle hay : String) : Bool :=
  listHasSub needle.data hay.data

/-- Case-insensitive prefix test: `pat` (given lowercase) matches the head
of `s` under `re.IGNORECASE`. -/
def ciStarts (pat s : List Char) : Bool :=
  listStarts pat (s.map Char.toLower)

/-! ## `re.search` machinery for the fixed patterns of the source

`scanFirst m s` models `re.search`: it applies the single-position matcher
`m` to every suffix of `s`, left to right, and returns the first success. -/

def scanFirst (m : List Char → Option (List Char)) : List Char → Option (List Char)
  | [] => m []
  | c :: cs =>
    match m (c :: cs) with
    | some g => some g
    | none => scanFirst m cs

/-- After a keyword, match `[:\s]+([^\n\r]+)` when the greedy run of
`[:\s]` must give characters back for the group to become non-empty
(the run is followed by a newline or by the end of the text).  The
quantifier backtracks one character at a time, so the latest run
position holding a non-newline character starts the group; position 0
is excluded because `[:\s]+` needs at least one character.  `revRun` is
the reversed run, `rest` the text after the run. -/
def backGroup (rest : List Char) : List Char → List Char → Option (List Char)
  | [], _ => none
  | [_], _ => none
  | c :: cs, acc =>
    if isNL c then backGroup rest cs (c :: acc)
    else some ((c :: acc ++ rest).takeWhile (fun d => !isNL d))

/-- Match `[:\s]+([^\n\r]+)` at the head of `t`, returning the group
(Python `re` semantics: both quantifiers greedy, the first backtracking
as needed). -/
def groupAfterRun (t : List Char) : Option (List Char) :=
  let run := t.takeWhile isColonSpace
  let rest := t.drop run.length
  if run.isEmpty then none
  else
    match rest with
    | [] => backGroup [] run.reverse []
    | c :: _ =>
      if isNL c then backGroup rest run.reverse []
      else some (rest.takeWhile (fun d => !isNL d))

/-- `Customer[:\s]+([^\n\r]+)` at one position. -/
def custAt (s : List Char) : Option (List Char) :=
  if ciStarts "customer".data s then groupAfterRun (s.drop 8) else none

/-- `Name[:\s]+([^\n\r]+)` at one position. -/
def nameAt (s : List Char) : Option (List Char) :=
  if ciStarts "name".data s then groupAfterRun (s.drop 4) else none

/-- `Client[:\s]+([^\n\r]+)` at one position. -/
def clientAt (s : List Char) : Option (List Char) :=
  if ciStarts "client".data s then groupAfterRun (s.drop 6) else none

/-- `Bill[ing]*\s+To[:\s]+([^\n\r]+)` at one position.  The atoms
`[ing]*`, `\s+` and the literal `To` act on disjoint character classes,
so the greedy runs need no backtracking against one another. -/
def billAt (s : List Char) : Option (List Char) :=
  if ciStarts "bill".data s then
    let t := s.drop 4
    let ing := t.takeWhile (fun c => c.toLower = 'i' || c.toLower = 'n' || c.toLower = 'g')
    let t2 := t.drop ing.length
    let ws := t2.takeWhile isPySpace
    if ws.isEmpty then none
    else
      let t3 := t2.drop ws.length
      if ciStarts "to".data t3 then groupAfterRun (t3.drop 2) else none
  else none

/-- `Ship[ping]*\s+To[:\s]+([^\n\r]+)` at one position. -/
def shipAt (s : List Char) : Option (List Char) :=
  if ciStarts "ship".data s then
    let t := s.drop 4
    let png := t.takeWhile (fun c =>
      c.toLower = 'p' || c.toLower = 'i' || c.toLower = 'n' || c.toLower = 'g')
    let t2 := t.drop png.length
    let ws := t2.takeWhile isPySpace
    if ws.isEmpty then none
    else
      let t3 := t2.drop ws.length
      if ciStarts "to".data t3 then groupAfterRun (t3.drop 2) else none
  else none

/-- `\d{1,2}[slash or dash]\d{1,2}[slash or dash]\d{2,4}` at one position, returning the
matched text.  Each `\d{1,2}` is a maximal digit run of length 1 or 2
(a longer run leaves a digit in front of the separator even after
backtracking, so the position fails); the final `\d{2,4}` greedily takes
up to four digits. -/
def dateAt (s : List Char) : Option (List Char) :=
  let r1 := (s.takeWhile Char.isDigit).length
  if r1 = 0 || 2 < r1 then none
  else
    match s.drop r1 with
    | [] => none
    | c1 :: s2 =>
      if c1 = '/' || c1 = '-' then
        let r2 := (s2.takeWhile Char.isDigit).length
        if r2 = 0 || 2 < r2 then none
        else
          match s2.drop r2 with
          | [] => none
          | c2 :: s4 =>
            if c2 = '/' || c2 = '-' then
              let r3 := (s4.takeWhile Char.isDigit).length
              if r3 < 2 then none
              else some (s.take r1 ++ c1 :: s2.take r2 ++ c2 :: s4.take (min r3 4))
            else none
      else none

/-- The tail `[:\s]+(date)` shared by the two keyword date patterns:
a nonempty run of `[:\s]`, then the date.  The run cannot give
characters back because the date must start with a digit. -/
def dateAfterColonRun (t : List Char) : Option (List Char) :=
  if (t.takeWhile isColonSpace).isEmpty then none
  else dateAt (t.drop (t.takeWhile isColonSpace).length)

/-- `Date[:\s]+(\d{1,2}[slash or dash]\d{1,2}[slash or dash]\d{2,4})` at one position. -/
def datePat1At (s : List Char) : Option (List Char) :=
  if ciStarts "date".data s then dateAfterColonRun (s.drop 4) else none

/-- `Order\s+Date[:\s]+(\d{1,2}[slash or dash]\d{1,2}[slash or dash]\d{2,4})` at one position. -/
def datePat2At (s : List Char) : Option (List Char) :=
  if ciStarts "order".data s then
    if ((s.drop 5).takeWhile isPySpace).isEmpty then none
    else
      if ciStarts "date".data ((s.drop 5).drop ((s.drop 5).takeWhile isPySpace).length) then
        dateAfterColonRun ((((s.drop 5).drop ((s.drop 5).takeWhile isPySpace).length)).drop 4)
      else none
  else none

/-- `re.search` of one pattern over a text, as `String → Option String`. -/
def searchWith (m : List Char → Option (List Char)) (t : String) : Option String :=
  (scanFirst m t.data).map String.mk

/-- The `customer_patterns` list of the source, in order. -/
def customerPatterns : List (String → Option String) :=
  [searchWith custAt, searchWith billAt, searchWith shipAt,
   searchWith nameAt, searchWith clientAt]

/-- The `date_patterns` list of the source, in order. -/
def datePatterns : List (String → Option String) :=
  [searchWith datePat1At, searchWith datePat2At, searchWith dateAt]

/-- One pass of the source's inner pattern loop:
`for pattern in patterns: if match and current == "Not found":
current = match.group(1).strip(); break`. -/
def tryPatterns : List (String → Option String) → String → String → String
  | [], current, _ => current
  | p :: ps, current, t =>
    match p t with
    | some g => if current = "Not found" then pyStrip g else tryPatterns ps current t
    | none => tryPatterns ps current t

/-- `extract_customer_info`.  Its only use of each dataframe is
`df.to_string()`, so the embedding takes the rendered text of each
dataframe (the "raw text blob" of the spec) as input. -/
def extract_customer_info (texts : List String) : String × String :=
  texts.foldl
    (fun st t => (tryPatterns customerPatterns st.1 t, tryPatterns datePatterns st.2 t))
    ("Not found", "Not found")

/-! ## The dataframe model -/

/-- One dataframe cell: `NaN`, a string, or an integer (the only value
shapes the embedded code distinguishes; `astype(str)` renders them). -/
inductive Cell where
  | nan : Cell
  | str : String → Cell
  | int : Int → Cell
deriving DecidableEq, Repr

/-- Decimal digits of a natural number, most significant first; the
first argument is recursion fuel (`n + 1` always suffices). -/
def natDigsAux : Nat → Nat → List Char
  | 0, _ => []
  | fuel + 1, n =>
    if n < 10 then [Char.ofNat (48 + n)]
    else natDigsAux fuel (n / 10) ++ [Char.ofNat (48 + n % 10)]

/-- Python `str` of a nonnegative integer. -/
def natToStr (n : Nat) : String :=
  String.mk (natDigsAux (n + 1) n)

/-- Python `str` of an integer. -/
def intToStr (i : Int) : String :=
  if i < 0 then String.mk ('-' :: (natToStr i.natAbs).data) else natToStr i.natAbs

/-- Python `str`/pandas `astype(str)` of a cell (`NaN` renders as
`"nan"`). -/
def pyStr : Cell → String
  | Cell.nan => "nan"
  | Cell.str s => s
  | Cell.int i => intToStr i

/-- A pandas dataframe: column names and rows of cells.  Rows are
aligned with the columns positionally (pandas dataframes cannot be
ragged; out-of-range access in the model yields `NaN`). -/
structure DataFrame where
  cols : List String
  rows : List (List Cell)
deriving DecidableEq, Repr

/-- `pd.DataFrame()`. -/
def DataFrame.empty : DataFrame := ⟨[], []⟩

/-- pandas `df.empty`: some axis has length 0. -/
def DataFrame.isEmptyDf (df : DataFrame) : Bool :=
  df.rows.isEmpty || df.cols.isEmpty

/-- Cell `j` of a row, `NaN` when out of range. -/
def cellAt (r : List Cell) (j : Nat) : Cell :=
  r.getD j Cell.nan

/-! ## `process_line_items` -/

/-- A Python dict with string keys, as an ordered association list with
unique keys. -/
abbrev Dict := List (String × Cell)

/-- Python dict assignment `d[k] = v`: update in place if the key
exists (keeping its position), else append. -/
def dictInsert (k : String) (v : Cell) : List (String × Cell) → List (String × Cell)
  | [] => [(k, v)]
  | (k2, v2) :: rest =>
    if k2 = k then (k, v) :: rest else (k2, v2) :: dictInsert k v rest

/-- The `item_data` dict built for one surviving row: source metadata
first, then every column of the dataframe. -/
def buildItem (tag : String) (idx : Nat) (cols : List String) (r : List Cell) : Dict :=
  cols.enum.foldl (fun d jc => dictInsert jc.2 (cellAt r jc.1) d)
    [("Table_Source", Cell.str tag), ("Row_Index", Cell.int idx)]

/-- Is every cell of the row `NaN`?  (`dropna(how='all')`.) -/
def rowAllNaN (r : List Cell) : Bool :=
  r.all (fun c => c = Cell.nan)

/-- The items contributed by dataframe number `i` (0-based): rows
surviving `dropna(how='all')`, keeping their original index labels. -/
def itemsOfDf (i : Nat) (df : DataFrame) : List Dict :=
  (df.rows.enum.filter (fun ir => !rowAllNaN ir.2)).map
    (fun ir => buildItem ("Table_" ++ natToStr (i + 1)) ir.1 df.cols ir.2)

/-- The `all_items` list: dataframes with fewer than 2 rows are skipped
(`if len(df) < 2: continue`); `i` numbers the dataframes from
`enumerate(dfs)`. -/
def allItemsFrom (i : Nat) : List DataFrame → List Dict
  | [] => []
  | df :: rest =>
    (if df.rows.length < 2 then [] else itemsOfDf i df) ++ allItemsFrom (i + 1) rest

/-- `all_items` over the whole input list. -/
def allItems (dfs : List DataFrame) : List Dict :=
  allItemsFrom 0 dfs

/-- `pd.DataFrame(all_items)` column order: union of the dicts' keys in
order of first appearance. -/
def unionKeys (items : List Dict) : List String :=
  items.foldl (fun acc it => acc ++ ((it.map Prod.fst).filter (fun k => !acc.contains k))) []

/-- Number of non-`NaN` cells of a row. -/
def countPresent (r : List Cell) : Nat :=
  (r.filter (fun c => c ≠ Cell.nan)).length

/-- `process_line_items`: flatten the surviving rows of all sufficiently
large dataframes into one table, aligning each item dict to the union of
the keys (missing keys become `NaN`), then drop rows with fewer than
`0.3 * ncols` non-`NaN` values (`dropna(thresh=len(columns) * 0.3)`;
over the relevant integers the float comparison agrees with the exact
test `10 * present ≥ 3 * ncols`). -/
def process_line_items (dfs : List DataFrame) : DataFrame :=
  match allItems dfs with
  | [] => DataFrame.empty
  | it :: its =>
    let items := it :: its
    let cols := unionKeys items
    let rows := items.map (fun d => cols.map (fun c => (d.lookup c).getD Cell.nan))
    ⟨cols, rows.filter (fun r => 3 * cols.length ≤ 10 * countPresent r)⟩

/-! ## `calculate_summary_stats` -/

/-- An exact decimal number, `num / 10 ^ exp`.  The values
`pd.to_numeric` produces from stripped cell strings are finite
decimals, and their sums and comparisons are modelled exactly over this
representation (`Dec.toRat` gives the denoted rational; the bridge
lemmas below tie the operations to rational arithmetic). -/
structure Dec where
  num : Int
  exp : Nat
deriving DecidableEq, Repr

/-- The decimal 0. -/
def Dec.zero : Dec := ⟨0, 0⟩

/-- Exact addition of decimals: align to the larger exponent. -/
def Dec.add (a b : Dec) : Dec :=
  ⟨a.num * ((10 ^ (max a.exp b.exp - a.exp) : Nat) : Int) +
      b.num * ((10 ^ (max a.exp b.exp - b.exp) : Nat) : Int),
   max a.exp b.exp⟩

/-- The rational a decimal denotes. -/
def Dec.toRat (d : Dec) : ℚ :=
  (d.num : ℚ) / (10 : ℚ) ^ d.exp

/-- Is the decimal strictly positive?  (Equivalent to `0 < toRat`,
see `Dec.isPos_iff`.) -/
def Dec.isPos (d : Dec) : Bool :=
  decide (0 < d.num)

/-- Python `int()` of a nonnegative decimal: truncation, here by
integer division. -/
def Dec.floorInt (d : Dec) : Int :=
  d.num / ((10 ^ d.exp : Nat) : Int)

/-- Keep only digits and dots:
`str.replace(r'[^\d.]', '', regex=True)`. -/
def stripNonDigits (s : String) : String :=
  String.mk (s.data.filter (fun c => c.isDigit || c = '.'))

/-- Value of a digit run (empty run gives 0). -/
def natOfDigits (cs : List Char) : Nat :=
  cs.foldl (fun a c => 10 * a + (c.toNat - 48)) 0

/-- `pd.to_numeric(·, errors='coerce')` on a string made of digits and
dots (the output shape of `stripNonDigits`): at most one dot and at
least one digit parse as an exact decimal, everything else coerces to
`NaN` (`none`). -/
def parseStripped (s : String) : Option Dec :=
  let cs := s.data
  if !cs.all (fun c => c.isDigit || c = '.') then none
  else
    let dots := (cs.filter (fun c => c = '.')).length
    if dots = 0 then
      if cs.isEmpty then none else some ⟨natOfDigits cs, 0⟩
    else if dots = 1 then
      let ip := cs.takeWhile (fun c => c ≠ '.')
      let fp := cs.drop (ip.length + 1)
      if ip.isEmpty && fp.isEmpty then none
      else some ⟨natOfDigits ip * ((10 ^ fp.length : Nat) : Int) + natOfDigits fp, fp.length⟩
    else none

/-- The numeric value a cell contributes to a quantity sum: render,
strip, coerce; `NaN` contributes 0 (`Series.sum` skips NaN). -/
def cellQty (c : Cell) : Dec :=
  (parseStripped (stripNonDigits (pyStr c))).getD Dec.zero

/-- Sum of column `j` after `astype(str)`, stripping and coercion.
The source sums `float64` values; this model sums the denoted decimals
exactly.  The two agree in sign always (sums of nonnegative floats lose
no sign information), and agree in value whenever every parsed cell is
a whole number and the total stays below `2 ^ 53`, the regime in which
every partial sum is an exactly representable integer whatever the
summation order.  Theorems that equate a reported integer with this sum
carry those hypotheses. -/
def colStripSum (df : DataFrame) (j : Nat) : Dec :=
  df.rows.foldl (fun a r => a.add (cellQty (cellAt r j))) Dec.zero

/-- The quantity keywords of the source. -/
def qtyKeywords : List String := ["qty", "quantity", "units", "count"]

/-- Does a column name contain a quantity keyword
(`any(keyword in col_str ...)` on the lowercased name)? -/
def isQtyName (c : String) : Bool :=
  qtyKeywords.any (fun k => pySubstr k (pyLower c))

/-- The product/description keywords of source line 94. -/
def productKeywords : List String := ["product", "item", "description", "name"]

/-- The price keywords of source line 104. -/
def priceKeywords : List String := ["price", "cost", "amount", "total", "$"]

/-- Does a column name contain a product keyword? -/
def isProductName (c : String) : Bool :=
  productKeywords.any (fun k => pySubstr k (pyLower c))

/-- Does a column name contain a price keyword? -/
def isPriceName (c : String) : Bool :=
  priceKeywords.any (fun k => pySubstr k (pyLower c))

/-- Python `re.match(r'^\d+$', s)` truthiness (source line 100): a
nonempty digit run, optionally followed by one final newline (`$` also
matches before a trailing newline). -/
def pyFullNum (s : String) : Bool :=
  let cs := if s.data.getLast? = some '\n' then s.data.dropLast else s.data
  !cs.isEmpty && cs.all Char.isDigit

/-- The majority-numeric column heuristic of source line 100: the count
of values fully matching `^\d+$` on the lowercased rendering strictly
above half the row count (`count > len * 0.5`, exact as
`len < 2 * count` since `0.5` is an exact float). -/
def majorityNumeric (df : DataFrame) (j : Nat) : Bool :=
  decide (df.rows.length <
    2 * (df.rows.filter (fun r => pyFullNum (pyLower (pyStr (cellAt r j))))).length)

/-- `col_data.str.contains` of source line 106 on one value: a currency
character anywhere, or a substring matching `\d+\.\d{2}` — the latter
holds exactly when some digit is followed by a dot and two digits. -/
def centsSub : List Char → Bool
  | a :: b :: c :: d :: rest =>
    (a.isDigit && b = '.' && c.isDigit && d.isDigit) || centsSub (b :: c :: d :: rest)
  | _ => false

/-- One value's contribution to the price-value heuristic. -/
def priceValueHit (s : String) : Bool :=
  s.data.any (fun c => c = '$' || c = '£' || c = '€') || centsSub s.data

/-- `df.dropna(how='all')`: remove rows whose every cell is `NaN`. -/
def dropAllNaN (df : DataFrame) : DataFrame :=
  ⟨df.cols, df.rows.filter (fun r => !rowAllNaN r)⟩

/-- The exception message of source line 91 on a duplicated column
label. -/
def attrError : String := "AttributeError"

/-- `df_copy[col].astype(str).str.lower()` of source line 91: with a
duplicated column label, `df_copy[col]` is a DataFrame, which has no
`.str` accessor, and the expression raises uncaught; with a unique
label it is the column's lowercased rendered values. -/
def colDataE (df : DataFrame) (j : Nat) (c : String) : Except String (List String) :=
  if 2 ≤ df.cols.count c then Except.error attrError
  else Except.ok (df.rows.map (fun r => pyLower (pyStr (cellAt r j))))

/-- The column-classification loop of source lines 84-107, run on the
`dropna(how='all')` copy.  The three lists it builds are read by
nothing afterwards, so its only observable effect is the
`AttributeError` of line 91 when some column label is duplicated. -/
def classifyColsE (dfc : DataFrame) :
    Except String (List String × List String × List String) :=
  dfc.cols.enum.foldlM
    (fun acc jc => do
      let colData ← colDataE dfc jc.1 jc.2
      let prods := if isProductName jc.2 then acc.1 ++ [jc.2] else acc.1
      let qtys :=
        if isQtyName jc.2 then acc.2.1 ++ [jc.2]
        else if majorityNumeric dfc jc.1 then acc.2.1 ++ [jc.2]
        else acc.2.1
      let prices :=
        if isPriceName jc.2 then acc.2.2 ++ [jc.2]
        else if colData.any priceValueHit then acc.2.2 ++ [jc.2]
        else acc.2.2
      pure (prods, qtys, prices))
    ([], [], [])

/-- The `for col in items_df.columns` loop of `calculate_summary_stats`:
the first keyword-named column is summed and the loop breaks; the
`except: continue` never fires because `errors='coerce'` is total. -/
def qtyLoop (df : DataFrame) : List (Nat × String) → Dec
  | [] => Dec.zero
  | (j, c) :: rest => if isQtyName c then colStripSum df j else qtyLoop df rest

/-- The reported total quantity: a number only when positive. -/
inductive QtyResult where
  | num : Int → QtyResult
  | unable : QtyResult
deriving DecidableEq, Repr

/-- `calculate_summary_stats`: `(0, 0)` on an empty table, else the row
count together with `int(total_quantity)` when the summed quantity is
positive and the sentinel otherwise. -/
def calculate_summary_stats (df : DataFrame) : Nat × QtyResult :=
  if df.isEmptyDf then (0, QtyResult.num 0)
  else
    let tq := qtyLoop df df.cols.enum
    (df.rows.length, if tq.isPos then QtyResult.num tq.floorInt else QtyResult.unable)

/-! ## Exception-aware mirrors

The extraction functions catch nothing except the `try/except` around
the quantity conversion.  These mirrors thread an `Except` monad
through the same recursions, with the `except: continue` of the source
and the one genuinely raising spot — the column-classification loop's
`.str` access on a duplicated column label (source line 91) — modelled
explicitly.  "Never raises to the caller" becomes the statement that a
mirror returns `.ok`. -/

def tryPatternsE : List (String → Option String) → String → String → Except String String
  | [], current, _ => Except.ok current
  | p :: ps, current, t =>
    match p t with
    | some g =>
      if current = "Not found" then Except.ok (pyStrip g) else tryPatternsE ps current t
    | none => tryPatternsE ps current t

def extract_customer_infoE (texts : List String) : Except String (String × String) :=
  texts.foldlM
    (fun st t => do
      let n ← tryPatternsE customerPatterns st.1 t
      let d ← tryPatternsE datePatterns st.2 t
      pure (n, d))
    ("Not found", "Not found")

def allItemsFromE (i : Nat) : List DataFrame → Except String (List Dict)
  | [] => Except.ok []
  | df :: rest => do
    let here ←
      if df.rows.length < 2 then Except.ok []
      else do
        let _cls ← classifyColsE (dropAllNaN df)
        Except.ok (itemsOfDf i df)
    let more ← allItemsFromE (i + 1) rest
    pure (here ++ more)

def process_line_itemsE (dfs : List DataFrame) : Except String DataFrame := do
  let itemsAll ← allItemsFromE 0 dfs
  match itemsAll with
  | [] => pure DataFrame.empty
  | it :: its =>
    let items := it :: its
    let cols := unionKeys items
    let rows := items.map (fun d => cols.map (fun c => (d.lookup c).getD Cell.nan))
    pure ⟨cols, rows.filter (fun r => 3 * cols.length ≤ 10 * countPresent r)⟩

/-- The body of the `try:` block: `pd.to_numeric` with `errors='coerce'`
is total, so the summation never fails. -/
def sumColE (df : DataFrame) (j : Nat) : Except String Dec :=
  Except.ok (colStripSum df j)

/-- The column loop with the source's `try/except/continue`. -/
def qtyLoopE (df : DataFrame) : List (Nat × String) → Except String Dec
  | [] => Except.ok Dec.zero
  | (j, c) :: rest =>
    if isQtyName c then
      match sumColE df j with
      | Except.ok v => Except.ok v
      | Except.error _ => qtyLoopE df rest
    else qtyLoopE df rest

def calculate_summary_statsE (df : DataFrame) : Except String (Nat × QtyResult) :=
  if df.isEmptyDf then Except.ok (0, QtyResult.num 0)
  else do
    let tq ← qtyLoopE df df.cols.enum
    pure (df.rows.length, if tq.isPos then QtyResult.num tq.floorInt else QtyResult.unable)

/-! ## The order-summary CSV export

`summary_df.to_csv(index=False)` writes a header row and one data row,
quoting minimally (a field is quoted when it contains a comma, a quote,
or a line break; quotes are doubled) and terminating each row with a
newline.  `parseCsv` is the standard CSV reader for such output. -/

/-- Does a field need quoting under `csv.QUOTE_MINIMAL` (delimiter,
quote character, or the `\n` line terminator)? -/
def needsQuote (f : List Char) : Bool :=
  f.any (fun c => c = ',' || c = '"' || c = '\n')

/-- Double every quote character. -/
def escQ : List Char → List Char
  | [] => []
  | c :: cs => if c = '"' then '"' :: '"' :: escQ cs else c :: escQ cs

/-- One encoded CSV field. -/
def encodeField (f : List Char) : List Char :=
  if needsQuote f then '"' :: (escQ f ++ ['"']) else f

/-- One encoded CSV record (no terminator). -/
def encodeLine : List (List Char) → List Char
  | [] => []
  | [f] => encodeField f
  | f :: g :: fs => encodeField f ++ ',' :: encodeLine (g :: fs)

/-- CSV field scanner for one record, as a character automaton:
state 0 reads an unquoted stretch, state 1 is inside quotes, state 2
has just read a quote while inside quotes (either the first half of a
doubled quote or the closing quote); `acc` is the current field
reversed. -/
def parseLineSt : Nat → List Char → List Char → List (List Char)
  | _, [], acc => [acc.reverse]
  | 0, c :: cs, acc =>
    if c = ',' then acc.reverse :: parseLineSt 0 cs []
    else if c = '"' then parseLineSt 1 cs acc
    else parseLineSt 0 cs (c :: acc)
  | 1, c :: cs, acc =>
    if c = '"' then parseLineSt 2 cs acc
    else parseLineSt 1 cs (c :: acc)
  | _ + 2, c :: cs, acc =>
    if c = '"' then parseLineSt 1 cs ('"' :: acc)
    else if c = ',' then acc.reverse :: parseLineSt 0 cs []
    else parseLineSt 0 cs (c :: acc)

/-- Fields of one CSV record. -/
def parseLine (l : List Char) : List (List Char) :=
  parseLineSt 0 l []

/-- Split a character stream at newlines. -/
def splitLines : List Char → List (List Char)
  | [] => [[]]
  | c :: cs =>
    if c = '\n' then [] :: splitLines cs
    else
      match splitLines cs with
      | [] => [[c]]
      | l :: ls => (c :: l) :: ls

/-- Parse a CSV file: split into lines, ignore the empty piece after a
trailing newline, read each record. -/
def parseCsv (s : String) : List (List String) :=
  let ls := splitLines s.data
  let ls2 := if ls.getLast? = some [] then ls.dropLast else ls
  ls2.map (fun l => (parseLine l).map String.mk)

/-- The order summary assembled in `main` from the outputs of the three
extraction functions. -/
structure OrderSummary where
  customerName : String
  orderDate : String
  totalProducts : Nat
  totalQuantity : QtyResult
deriving DecidableEq, Repr

/-- How the total-quantity entry prints in the summary dataframe. -/
def qtyCell : QtyResult → String
  | QtyResult.num i => intToStr i
  | QtyResult.unable => "Unable to calculate"

/-- The header of `summary_df`. -/
def summaryHeader : List String :=
  ["Customer Name", "Date", "Total Products Ordered", "Total Quantity Ordered"]

/-- The four field values of the summary row, as they print. -/
def summaryFields (s : OrderSummary) : List String :=
  [s.customerName, s.orderDate, natToStr s.totalProducts, qtyCell s.totalQuantity]

/-- `summary_df.to_csv(index=False)`. -/
def summaryToCsv (s : OrderSummary) : String :=
  String.mk (encodeLine (summaryHeader.map String.data) ++ '\n'
    :: (encodeLine ((summaryFields s).map String.data) ++ ['\n']))

/-! ## Quantity-likeness in the words of the claims

For comparison with the code, `specTotalQty` renders the reading of the
spec in which the total quantity sums every quantity-like column, where
a column is quantity-like when its name holds a quantity keyword or when
its values are majority-numeric (the heuristic of
`process_line_items`, lines 97-101 of the source: count of values fully
matching `^\d+$` on the lowercased rendering strictly above half the
row count). -/

/-- Total quantity as the claim words it: summed over all
quantity-like columns. -/
def specTotalQty (df : DataFrame) : Dec :=
  (df.cols.enum.filter (fun jc => isQtyName jc.2 || majorityNumeric df jc.1)).foldl
    (fun a jc => a.add (colStripSum df jc.1)) Dec.zero
/-! ## Lemmas about the search machinery -/

theorem scanFirst_eq_none {m : List Char → Option (List Char)} :
    ∀ {s : List Char}, scanFirst m s = none → ∀ n, m (s.drop n) = none := by
  intro s
  induction s with
  | nil =>
    intro h n
    simpa [List.drop_nil] using h
  | cons c cs ih =>
    intro h n
    rw [scanFirst] at h
    rcases hm : m (c :: cs) with _ | g
    · rw [hm] at h
      cases n with
      | zero => simpa using hm
      | succ n => exact ih h n
    · rw [hm] at h
      cases h

theorem scanFirst_eq_some {m : List Char → Option (List Char)} :
    ∀ {s g : List Char}, scanFirst m s = some g → ∃ n, m (s.drop n) = some g := by
  intro s
  induction s with
  | nil =>
    intro g h
    exact ⟨0, by simpa [scanFirst] using h⟩
  | cons c cs ih =>
    intro g h
    rw [scanFirst] at h
    rcases hm : m (c :: cs) with _ | g2
    · rw [hm] at h
      obtain ⟨n, hn⟩ := ih h
      exact ⟨n + 1, hn⟩
    · rw [hm] at h
      cases h
      exact ⟨0, hm⟩

theorem scanFirst_isSome_of_at {m : List Char → Option (List Char)} :
    ∀ {s : List Char} (n : Nat), (m (s.drop n)).isSome → (scanFirst m s).isSome := by
  intro s
  induction s with
  | nil =>
    intro n h
    simpa [scanFirst] using (by simpa [List.drop_nil] using h)
  | cons c cs ih =>
    intro n h
    rw [scanFirst]
    rcases hm : m (c :: cs) with _ | g
    · cases n with
      | zero => rw [List.drop] at h; rw [hm] at h; cases h
      | succ n => exact ih n h
    · rfl

theorem dateAfterColonRun_finds {t g : List Char} (h : dateAfterColonRun t = some g) :
    ∃ k, dateAt (t.drop k) = some g := by
  rw [dateAfterColonRun] at h
  by_cases h1 : (t.takeWhile isColonSpace).isEmpty = true
  · rw [if_pos h1] at h
    cases h
  · rw [if_neg h1] at h
    exact ⟨_, h⟩

theorem datePat1At_finds_date {s g : List Char} (h : datePat1At s = some g) :
    ∃ k, dateAt (s.drop k) = some g := by
  rw [datePat1At] at h
  by_cases h1 : ciStarts "date".data s = true
  · rw [if_pos h1] at h
    obtain ⟨k, hk⟩ := dateAfterColonRun_finds h
    rw [List.drop_drop] at hk
    exact ⟨_, hk⟩
  · rw [if_neg h1] at h
    cases h

theorem datePat2At_finds_date {s g : List Char} (h : datePat2At s = some g) :
    ∃ k, dateAt (s.drop k) = some g := by
  rw [datePat2At] at h
  by_cases h1 : ciStarts "order".data s = true
  · rw [if_pos h1] at h
    by_cases h2 : ((s.drop 5).takeWhile isPySpace).isEmpty = true
    · rw [if_pos h2] at h
      cases h
    · rw [if_neg h2] at h
      by_cases h3 : ciStarts "date".data
          ((s.drop 5).drop ((s.drop 5).takeWhile isPySpace).length) = true
      · rw [if_pos h3] at h
        obtain ⟨k, hk⟩ := dateAfterColonRun_finds h
        rw [List.drop_drop, List.drop_drop, List.drop_drop] at hk
        exact ⟨_, hk⟩
      · rw [if_neg h3] at h
        cases h
  · rw [if_neg h1] at h
    cases h

/-- `hasDateLike t` holds when some position of `t` matches the bare
date pattern of the source. -/
def hasDateLike (t : String) : Bool :=
  (scanFirst dateAt t.data).isSome

theorem searchWith_dateAt_none {t : String} (h : hasDateLike t = false) :
    searchWith dateAt t = none := by
  rw [searchWith]
  rcases hs : scanFirst dateAt t.data with _ | g
  · rfl
  · rw [hasDateLike, hs] at h
    cases h

theorem searchWith_datePat1_none {t : String} (h : hasDateLike t = false) :
    searchWith datePat1At t = none := by
  rw [searchWith]
  rcases hs : scanFirst datePat1At t.data with _ | g
  · rfl
  · exfalso
    obtain ⟨n, hn⟩ := scanFirst_eq_some hs
    obtain ⟨k, hk⟩ := datePat1At_finds_date hn
    rw [List.drop_drop] at hk
    have h2 := scanFirst_isSome_of_at (m := dateAt) (s := t.data) (n + k) (by rw [hk]; rfl)
    rw [hasDateLike] at h
    rw [h] at h2
    cases h2

theorem searchWith_datePat2_none {t : String} (h : hasDateLike t = false) :
    searchWith datePat2At t = none := by
  rw [searchWith]
  rcases hs : scanFirst datePat2At t.data with _ | g
  · rfl
  · exfalso
    obtain ⟨n, hn⟩ := scanFirst_eq_some hs
    obtain ⟨k, hk⟩ := datePat2At_finds_date hn
    rw [List.drop_drop] at hk
    have h2 := scanFirst_isSome_of_at (m := dateAt) (s := t.data) (n + k) (by rw [hk]; rfl)
    rw [hasDateLike] at h
    rw [h] at h2
    cases h2

/-- When a text has no date-like substring, the date loop leaves its
state unchanged, whatever that state is. -/
theorem tryPatterns_date_id (t : String) (h : hasDateLike t = false) (d : String) :
    tryPatterns datePatterns d t = d := by
  rw [datePatterns, tryPatterns, searchWith_datePat1_none h, tryPatterns,
    searchWith_datePat2_none h, tryPatterns, searchWith_dateAt_none h, tryPatterns]

/-- The two components of the extractor's fold evolve independently. -/
theorem foldl_pair_components (l : List String)
    (f g : String → String → String) :
    ∀ a b : String,
      l.foldl (fun st t => (f st.1 t, g st.2 t)) (a, b) =
        (l.foldl f a, l.foldl g b) := by
  induction l with
  | nil => intro a b; rfl
  | cons t ts ih => intro a b; exact ih (f a t) (g b t)

theorem extract_snd (texts : List String) :
    (extract_customer_info texts).2 =
      texts.foldl (fun d t => tryPatterns datePatterns d t) "Not found" := by
  rw [extract_customer_info,
    foldl_pair_components texts (fun a t => tryPatterns customerPatterns a t)
      (fun d t => tryPatterns datePatterns d t)]

/-! ## Claim C6: no date-like substring gives the sentinel date -/

/-- C6.  For every input whose rendered text contains no date-like
substring (no position matches the digits-separator-digits-separator-
digits pattern), `extract_customer_info` returns the `"Not found"`
sentinel as the order date. -/
theorem claimC6 (texts : List String) (h : ∀ t ∈ texts, hasDateLike t = false) :
    (extract_customer_info texts).2 = "Not found" := by
  rw [extract_snd]
  induction texts with
  | nil => rfl
  | cons t ts ih =>
    rw [List.foldl_cons, tryPatterns_date_id t (h t (by simp))]
    exact ih (fun x hx => h x (by simp [hx]))

/-- C6 witness: a concrete dateless input. -/
theorem claimC6_witness : (extract_customer_info ["Customer: Jane Doe"]).2 = "Not found" :=
  claimC6 ["Customer: Jane Doe"] (by decide)

/-! ## Claim C5: the customer-name patterns -/

theorem tryPatternsE_ok (ps : List (String → Option String)) (cur t : String) :
    tryPatternsE ps cur t = Except.ok (tryPatterns ps cur t) := by
  induction ps with
  | nil => rfl
  | cons p ps ih =>
    simp only [tryPatternsE, tryPatterns]
    rcases h : p t with _ | g
    · simp only [h]
      exact ih
    · simp only [h]
      by_cases hc : cur = "Not found"
      · simp only [hc, if_pos]
      · simp only [if_neg hc]
        exact ih

theorem snd_mem_enumFrom {α : Type} (l : List α) :
    ∀ (n : Nat) (x : Nat × α), x ∈ List.enumFrom n l → x.2 ∈ l := by
  induction l with
  | nil =>
    intro n x h
    cases h
  | cons a as ih =>
    intro n x h
    rw [List.enumFrom] at h
    rcases List.mem_cons.mp h with h1 | h2
    · rw [h1]
      exact List.mem_cons_self a as
    · exact List.mem_cons_of_mem a (ih (n + 1) x h2)

theorem foldlM_except_ok {α β : Type} (g : β → α → Except String β) (f : β → α → β)
    (hg : ∀ b a, g b a = Except.ok (f b a)) :
    ∀ (l : List α) (b : β), l.foldlM g b = Except.ok (l.foldl f b) := by
  intro l
  induction l with
  | nil => intro b; rfl
  | cons x xs ih =>
    intro b
    rw [List.foldlM_cons, hg b x]
    exact ih (f b x)

theorem extractE_ok (texts : List String) :
    extract_customer_infoE texts = Except.ok (extract_customer_info texts) := by
  rw [extract_customer_infoE, extract_customer_info]
  refine foldlM_except_ok _ _ ?_ texts ("Not found", "Not found")
  intro b a
  show (do
    let n ← tryPatternsE customerPatterns b.1 a
    let d ← tryPatternsE datePatterns b.2 a
    pure (n, d)) = _
  rw [tryPatternsE_ok, tryPatternsE_ok]
  rfl

theorem foldlM_ok_of_body {α β : Type} (g : β → α → Except String β) :
    ∀ l : List α, (∀ b : β, ∀ a ∈ l, ∃ v, g b a = Except.ok v) →
      ∀ b : β, ∃ v, l.foldlM g b = Except.ok v := by
  intro l
  induction l with
  | nil => intro _ b; exact ⟨b, rfl⟩
  | cons x xs ih =>
    intro h b
    obtain ⟨v, hv⟩ := h b x (List.mem_cons_self _ _)
    obtain ⟨w, hw⟩ := ih (fun b2 a ha => h b2 a (List.mem_cons_of_mem _ ha)) v
    refine ⟨w, ?_⟩
    rw [List.foldlM_cons, hv]
    exact hw

/-- With distinct column labels, the classification loop of lines
84-107 completes without raising. -/
theorem classifyColsE_ok (dfc : DataFrame) (h : dfc.cols.Nodup) :
    ∃ v, classifyColsE dfc = Except.ok v := by
  rw [classifyColsE]
  refine foldlM_ok_of_body _ _ ?_ ([], [], [])
  intro b jc hjc
  have hmem : jc.2 ∈ dfc.cols := snd_mem_enumFrom dfc.cols 0 jc hjc
  have hcount : dfc.cols.count jc.2 ≤ 1 := List.nodup_iff_count_le_one.mp h jc.2
  have hcd : colDataE dfc jc.1 jc.2 =
      Except.ok (dfc.rows.map (fun r => pyLower (pyStr (cellAt r jc.1)))) := by
    rw [colDataE, if_neg (by omega)]
  simp only [hcd]
  exact ⟨_, rfl⟩

theorem allItemsFromE_ok :
    ∀ dfs : List DataFrame, (∀ d ∈ dfs, 2 ≤ d.rows.length → d.cols.Nodup) →
      ∀ i, allItemsFromE i dfs = Except.ok (allItemsFrom i dfs) := by
  intro dfs
  induction dfs with
  | nil => intro _ i; rfl
  | cons df rest ih =>
    intro h i
    have hrest := fun d hd => h d (List.mem_cons_of_mem _ hd)
    simp only [allItemsFromE, allItemsFrom]
    by_cases hs : df.rows.length < 2
    · simp only [if_pos hs, ih hrest (i + 1)]
      rfl
    · have hnod : (dropAllNaN df).cols.Nodup :=
        h df (List.mem_cons_self _ _) (by omega)
      obtain ⟨v, hv⟩ := classifyColsE_ok (dropAllNaN df) hnod
      simp only [if_neg hs, hv, ih hrest (i + 1)]
      rfl

theorem processE_ok (dfs : List DataFrame)
    (h : ∀ d ∈ dfs, 2 ≤ d.rows.length → d.cols.Nodup) :
    process_line_itemsE dfs = Except.ok (process_line_items dfs) := by
  rw [process_line_itemsE, allItemsFromE_ok dfs h]
  rcases hall : allItemsFrom 0 dfs with _ | ⟨it, its⟩
  · rw [process_line_items, allItems, hall]
    rfl
  · rw [process_line_items, allItems, hall]
    rfl

theorem qtyLoopE_ok (df : DataFrame) :
    ∀ l, qtyLoopE df l = Except.ok (qtyLoop df l) := by
  intro l
  induction l with
  | nil => rfl
  | cons jc rest ih =>
    rcases jc with ⟨j, c⟩
    simp only [qtyLoopE, qtyLoop]
    by_cases h : isQtyName c = true
    · simp only [if_pos h]
      rfl
    · simp only [if_neg h]
      exact ih

theorem calcE_ok (df : DataFrame) :
    calculate_summary_statsE df = Except.ok (calculate_summary_stats df) := by
  rw [calculate_summary_statsE, calculate_summary_stats]
  by_cases h : df.isEmptyDf = true
  · simp only [if_pos h]
  · simp only [if_neg h]
    rw [qtyLoopE_ok]
    rfl

/-! ## Claim C3: totality of the extraction pipeline -/

/-- A table with a duplicated column label and at least 2 rows: the
classification loop raises on it. -/
def exC3 : DataFrame :=
  ⟨["A", "A"], [[Cell.str "x", Cell.str "y"], [Cell.str "u", Cell.str "v"]]⟩

/-- C3 counterexample.  `process_line_items` does NOT return normally
on every input: a dataframe with at least 2 rows and a duplicated
column label reaches the column-classification loop, where
`df_copy[col]` yields a DataFrame and `.astype(str).str` (source line
91) raises an uncaught `AttributeError`.  The exception-aware mirror
returns the error instead of a table. -/
theorem claimC3_cex :
    2 ≤ exC3.rows.length ∧ ¬exC3.cols.Nodup ∧
    process_line_itemsE [exC3] = Except.error attrError := by
  refine ⟨by decide, by decide, rfl⟩

/-- C3 as amended.  `extract_customer_info` and
`calculate_summary_stats` return normally on every input, and
`process_line_items` returns normally whenever every dataframe large
enough to be processed (at least 2 rows) has distinct column labels —
which holds for every table `tabula.read_pdf` labels with its default
deduplicated headers; the one uncaught exception is the duplicated
column label of the counterexample.  Missing input degrades to the
sentinels (`"Not found"` pair, empty table). -/
theorem claimC3 (texts : List String) (dfs : List DataFrame) (df : DataFrame)
    (h : ∀ d ∈ dfs, 2 ≤ d.rows.length → d.cols.Nodup) :
    extract_customer_infoE texts = Except.ok (extract_customer_info texts) ∧
    process_line_itemsE dfs = Except.ok (process_line_items dfs) ∧
    calculate_summary_statsE df = Except.ok (calculate_summary_stats df) ∧
    extract_customer_info [] = ("Not found", "Not found") ∧
    process_line_items [] = DataFrame.empty :=
  ⟨extractE_ok texts, processE_ok dfs h, calcE_ok df, rfl, rfl⟩

/-- C3 witness. -/
theorem claimC3_witness :
    extract_customer_infoE ["Customer: Ann"] =
      Except.ok (extract_customer_info ["Customer: Ann"]) ∧
    process_line_itemsE [⟨["Product", "Qty"], [[Cell.str "W", Cell.str "1"],
        [Cell.str "G", Cell.str "2"]]⟩] =
      Except.ok (process_line_items [⟨["Product", "Qty"], [[Cell.str "W", Cell.str "1"],
        [Cell.str "G", Cell.str "2"]]⟩]) ∧
    calculate_summary_statsE ⟨["Qty"], [[Cell.str "1"]]⟩ =
      Except.ok (calculate_summary_stats ⟨["Qty"], [[Cell.str "1"]]⟩) ∧
    extract_customer_info [] = ("Not found", "Not found") ∧
    process_line_items [] = DataFrame.empty :=
  claimC3 ["Customer: Ann"]
    [⟨["Product", "Qty"], [[Cell.str "W", Cell.str "1"], [Cell.str "G", Cell.str "2"]]⟩]
    ⟨["Qty"], [[Cell.str "1"]]⟩ (by decide)

/-! ## Lemmas about the quantity loop -/

/-- Adding the zero decimal is the identity. -/
theorem Dec.add_zero (a : Dec) : a.add Dec.zero = a := by
  rcases a with ⟨n, e⟩
  simp [Dec.add, Dec.zero]

/-- A decimal is positive exactly when the rational it denotes is. -/
theorem Dec.isPos_iff (d : Dec) : d.isPos = true ↔ 0 < d.toRat := by
  rw [Dec.isPos, Dec.toRat]
  rcases d with ⟨n, e⟩
  simp only [decide_eq_true_eq]
  constructor
  · intro h
    apply div_pos
    · exact_mod_cast h
    · positivity
  · intro h
    by_contra hn
    push_neg at hn
    have hle : ((n : ℚ)) ≤ 0 := by exact_mod_cast hn
    have : (n : ℚ) / (10 : ℚ) ^ e ≤ 0 := div_nonpos_of_nonpos_of_nonneg hle (by positivity)
    exact absurd h (by linarith)

theorem qtyLoop_zero (df : DataFrame) :
    ∀ l, (∀ jc ∈ l, isQtyName jc.2 = false) → qtyLoop df l = Dec.zero := by
  intro l
  induction l with
  | nil => intro _; rfl
  | cons jc rest ih =>
    intro h
    rcases jc with ⟨j, c⟩
    rw [qtyLoop, if_neg]
    · exact ih (fun x hx => h x (List.mem_cons_of_mem _ hx))
    · have := h (j, c) (List.mem_cons_self _ _)
      simp only at this
      simp [this]

theorem qtyLoop_first (df : DataFrame) (c : String) (post : List String)
    (hc : isQtyName c = true) :
    ∀ (pre : List String) (n : Nat), (∀ x ∈ pre, isQtyName x = false) →
      qtyLoop df (List.enumFrom n (pre ++ c :: post)) = colStripSum df (n + pre.length) := by
  intro pre
  induction pre with
  | nil =>
    intro n _
    rw [List.nil_append, List.enumFrom, qtyLoop, if_pos hc]
    simp
  | cons a as ih =>
    intro n h
    rw [List.cons_append, List.enumFrom, qtyLoop, if_neg]
    · rw [ih (n + 1) (fun x hx => h x (List.mem_cons_of_mem _ hx))]
      have harith : n + 1 + as.length = n + (a :: as).length := by
        simp only [List.length_cons]
        omega
      rw [harith]
    · have := h a (List.mem_cons_self _ _)
      simp [this]

theorem colStripSum_eq_zero (df : DataFrame) (j : Nat)
    (h : ∀ r ∈ df.rows, parseStripped (stripNonDigits (pyStr (cellAt r j))) = none) :
    colStripSum df j = Dec.zero := by
  rw [colStripSum]
  have hgen : ∀ rows : List (List Cell),
      (∀ r ∈ rows, parseStripped (stripNonDigits (pyStr (cellAt r j))) = none) →
      ∀ a : Dec, rows.foldl (fun a r => a.add (cellQty (cellAt r j))) a = a := by
    intro rows
    induction rows with
    | nil => intro _ a; rfl
    | cons r rs ih =>
      intro hall a
      rw [List.foldl_cons]
      have hr : cellQty (cellAt r j) = Dec.zero := by
        rw [cellQty, hall r (List.mem_cons_self _ _)]
        rfl
      rw [hr, Dec.add_zero]
      exact ih (fun x hx => hall x (List.mem_cons_of_mem _ hx)) a
  exact hgen df.rows h Dec.zero

theorem isEmptyDf_false {df : DataFrame} (hr : df.rows ≠ []) (hc : df.cols ≠ []) :
    df.isEmptyDf = false := by
  rw [DataFrame.isEmptyDf]
  simp [hr, hc]

theorem calc_nonempty (df : DataFrame) (hr : df.rows ≠ []) (hc : df.cols ≠ []) :
    calculate_summary_stats df =
      (df.rows.length,
        if (qtyLoop df df.cols.enum).isPos then QtyResult.num (qtyLoop df df.cols.enum).floorInt
        else QtyResult.unable) := by
  rw [calculate_summary_stats, isEmptyDf_false hr hc]
  simp

/-! ## Claim C1: there is no raw-text fallback -/

/-- A line-items table with no keyword-named quantity column whose cell
text nonetheless holds `qty:` markers. -/
def exC1 : DataFrame :=
  ⟨["Product", "Info"],
   [[Cell.str "Widget", Cell.str "qty: 5"], [Cell.str "Gadget", Cell.str "qty: 7"]]⟩

/-- C1 counterexample.  The raw text of the items carries a clear
`qty:` quantity signal, no column name matches a quantity keyword, and
`calculate_summary_stats` still returns the sentinel: it never scans any
raw text (it does not even receive text — its only argument is the
line-items table). -/
theorem claimC1_cex :
    pySubstr "qty:" (pyStr (cellAt (exC1.rows.getD 0 []) 1)) = true ∧
    (∀ c ∈ exC1.cols, isQtyName c = false) ∧
    calculate_summary_stats exC1 = (2, QtyResult.unable) := by
  refine ⟨by decide, by decide, by decide⟩

/-- C1 as amended.  `calculate_summary_stats` has no raw-text fallback:
for every non-empty line-items table with no keyword-named quantity
column it returns the `"Unable to calculate"` sentinel, whatever
quantity markers the cell text may hold.  (Column names are assumed
distinct, as they are in every table `process_line_items` builds.) -/
theorem claimC1 (df : DataFrame) (hr : df.rows ≠ []) (hc : df.cols ≠ [])
    (hnodup : df.cols.Nodup) (h : ∀ c ∈ df.cols, isQtyName c = false) :
    (calculate_summary_stats df).2 = QtyResult.unable := by
  rw [calc_nonempty df hr hc]
  have hloop : qtyLoop df df.cols.enum = Dec.zero := by
    refine qtyLoop_zero df _ ?_
    intro jc hjc
    exact h jc.2 (snd_mem_enumFrom df.cols 0 jc hjc)
  rw [hloop]
  rfl

/-- C1 witness. -/
theorem claimC1_witness :
    (calculate_summary_stats ⟨["Product"], [[Cell.str "qty: 9"]]⟩).2 = QtyResult.unable :=
  claimC1 ⟨["Product"], [[Cell.str "qty: 9"]]⟩ (by decide) (by decide) (by decide) (by decide)

/-! ## Claim C2: which columns are summed -/

/-- A table with two keyword-named quantity columns. -/
def exC2 : DataFrame :=
  ⟨["Qty", "Units"],
   [[Cell.str "2", Cell.str "10"], [Cell.str "3", Cell.str "10"]]⟩

/-- C2 counterexample.  Both columns are quantity-like by keyword, the
claimed total over all quantity-like columns is 25, but the code sums
only the first keyword-named column (the loop breaks) and reports 5. -/
theorem claimC2_cex :
    isQtyName "Qty" = true ∧ isQtyName "Units" = true ∧
    (specTotalQty exC2).toRat = 25 ∧
    calculate_summary_stats exC2 = (2, QtyResult.num 5) ∧
    QtyResult.num 5 ≠ QtyResult.num 25 := by
  refine ⟨by decide, by decide, ?_, by decide, by decide⟩
  have h : specTotalQty exC2 = ⟨25, 0⟩ := by decide
  rw [h, Dec.toRat]
  norm_num

/-- C2 as amended.  For every non-empty line-items table whose detected
quantity values are whole numbers with a total below `2 ^ 53`, the
reported total quantity equals the sum over the FIRST column whose name
contains a quantity keyword — not over all quantity-like columns, and
the majority-numeric heuristic plays no part — with each value
rendered, stripped of characters other than digits and dots,
non-numeric values skipped, and the total reported as a number only
when positive (then truncated to an integer).  The integrality
hypotheses (`hint`, `hbound`) confine the statement to the regime where
the source's `float64` summation is exact in every summation order, so
the exact-decimal sum provably coincides with the program's; with
fractional cells the float sum can round (ten `"0.1"` cells sum to just
under 1 and the program reports 0), which this statement does not
cover.  (Column names assumed distinct, as in every table
`process_line_items` builds.) -/
theorem claimC2 (df : DataFrame) (pre post : List String) (c : String)
    (hcols : df.cols = pre ++ c :: post) (hnodup : df.cols.Nodup)
    (hpre : ∀ x ∈ pre, isQtyName x = false) (hc : isQtyName c = true)
    (hr : df.rows ≠ [])
    (hint : ∀ r ∈ df.rows, (cellQty (cellAt r pre.length)).exp = 0)
    (hbound : (colStripSum df pre.length).num < 2 ^ 53)
    (hpos : (colStripSum df pre.length).isPos = true) :
    calculate_summary_stats df =
      (df.rows.length, QtyResult.num (colStripSum df pre.length).floorInt) := by
  have hcne : df.cols ≠ [] := by
    rw [hcols]
    simp
  rw [calc_nonempty df hr hcne]
  have hloop : qtyLoop df df.cols.enum = colStripSum df pre.length := by
    rw [List.enum, hcols, qtyLoop_first df c post hc pre 0 hpre, Nat.zero_add]
  rw [hloop, if_pos hpos]

/-- C2 witness, also checking the spec's `"5", "3", "2" sums to 10`
example. -/
theorem claimC2_witness :
    calculate_summary_stats
        ⟨["Product", "Qty"],
         [[Cell.str "W", Cell.str "5"], [Cell.str "G", Cell.str "3"],
          [Cell.str "H", Cell.str "2"]]⟩ =
      (3, QtyResult.num 10) := by
  have h := claimC2
    ⟨["Product", "Qty"],
     [[Cell.str "W", Cell.str "5"], [Cell.str "G", Cell.str "3"],
      [Cell.str "H", Cell.str "2"]]⟩
    ["Product"] [] "Qty" rfl (by decide) (by decide) (by decide) (by decide) (by decide)
    (by decide) (by decide)
  simpa using h

/-! ## Claim C7: malformed or undetectable quantity columns -/

/-- A line-items table with columns but no rows: it is `empty` in the
pandas sense, and `calculate_summary_stats` takes the `(0, 0)` path. -/
def exC7 : DataFrame := ⟨["Product", "Price"], []⟩

/-- C7 counterexample.  A table with no keyword-named quantity column
(hence an undetectable quantity column) for which the function does NOT
return the sentinel: a table with no rows is `empty`, and the empty
branch returns the number 0 instead of `"Unable to calculate"`. -/
theorem claimC7_cex :
    (∀ c ∈ exC7.cols, isQtyName c = false) ∧
    calculate_summary_stats exC7 = (0, QtyResult.num 0) ∧
    (calculate_summary_stats exC7).2 ≠ QtyResult.unable := by
  refine ⟨by decide, by decide, by decide⟩

/-- C7 as amended.  For every line-items table that is non-empty in the
pandas sense (at least one row and one column), if no column name
matches a quantity keyword, or the first keyword-named column holds
only non-numeric values (every value coerces to `NaN` after stripping),
then `calculate_summary_stats` returns the `"Unable to calculate"`
sentinel for the total quantity — and it does so without raising: the
exception-aware mirror returns `.ok` of the same result.  (Column names
assumed distinct, as in every table `process_line_items` builds.) -/
theorem claimC7 (df : DataFrame) (hr : df.rows ≠ []) (hc : df.cols ≠ [])
    (hnodup : df.cols.Nodup)
    (h : (∀ c ∈ df.cols, isQtyName c = false) ∨
      ∃ pre c post, df.cols = pre ++ c :: post ∧ (∀ x ∈ pre, isQtyName x = false) ∧
        isQtyName c = true ∧
        ∀ r ∈ df.rows, parseStripped (stripNonDigits (pyStr (cellAt r pre.length))) = none) :
    (calculate_summary_stats df).2 = QtyResult.unable ∧
    calculate_summary_statsE df = Except.ok (calculate_summary_stats df) := by
  refine ⟨?_, calcE_ok df⟩
  rw [calc_nonempty df hr hc]
  rcases h with h | ⟨pre, c, post, hcols, hpre, hqty, hnan⟩
  · have hloop : qtyLoop df df.cols.enum = Dec.zero := by
      refine qtyLoop_zero df _ ?_
      intro jc hjc
      exact h jc.2 (snd_mem_enumFrom df.cols 0 jc hjc)
    rw [hloop]
    rfl
  · have hloop : qtyLoop df df.cols.enum = colStripSum df pre.length := by
      rw [List.enum, hcols, qtyLoop_first df c post hqty pre 0 hpre, Nat.zero_add]
    rw [hloop, colStripSum_eq_zero df pre.length hnan]
    rfl

/-- C7 witness: a one-column table whose quantity column holds only
non-numeric text. -/
theorem claimC7_witness :
    (calculate_summary_stats ⟨["Qty"], [[Cell.str "abc"], [Cell.str "-"]]⟩).2 =
      QtyResult.unable ∧
    calculate_summary_statsE ⟨["Qty"], [[Cell.str "abc"], [Cell.str "-"]]⟩ =
      Except.ok (calculate_summary_stats ⟨["Qty"], [[Cell.str "abc"], [Cell.str "-"]]⟩) :=
  claimC7 ⟨["Qty"], [[Cell.str "abc"], [Cell.str "-"]]⟩ (by decide) (by decide) (by decide)
    (Or.inr ⟨[], "Qty", [], rfl, by decide, by decide, by decide⟩)

/-! ## Claim C9: a non-positive total is indistinguishable from failure -/

/-- C9.  For every non-empty line-items table whose first keyword-named
quantity column sums to a value that is not strictly positive (for
example all entries `"0"`), `calculate_summary_stats` returns the
`"Unable to calculate"` sentinel rather than the number 0: a genuine
zero total cannot be told apart from a failed detection.  (Column names
assumed distinct, as in every table `process_line_items` builds.) -/
theorem claimC9 (df : DataFrame) (pre post : List String) (c : String)
    (hcols : df.cols = pre ++ c :: post) (hnodup : df.cols.Nodup)
    (hpre : ∀ x ∈ pre, isQtyName x = false) (hc : isQtyName c = true)
    (hr : df.rows ≠ []) (hnp : (colStripSum df pre.length).isPos = false) :
    (calculate_summary_stats df).2 = QtyResult.unable ∧
    (calculate_summary_stats df).2 ≠ QtyResult.num 0 := by
  have hcne : df.cols ≠ [] := by
    rw [hcols]
    simp
  have hmain : (calculate_summary_stats df).2 = QtyResult.unable := by
    rw [calc_nonempty df hr hcne]
    have hloop : qtyLoop df df.cols.enum = colStripSum df pre.length := by
      rw [List.enum, hcols, qtyLoop_first df c post hc pre 0 hpre, Nat.zero_add]
    simp only [hloop, hnp]
    rfl
  refine ⟨hmain, ?_⟩
  rw [hmain]
  decide

/-- C9 witness: a well-formed quantity column whose entries are all
`"0"`. -/
theorem claimC9_witness :
    (calculate_summary_stats ⟨["Qty"], [[Cell.str "0"], [Cell.str "0"]]⟩).2 =
      QtyResult.unable ∧
    (calculate_summary_stats ⟨["Qty"], [[Cell.str "0"], [Cell.str "0"]]⟩).2 ≠
      QtyResult.num 0 :=
  claimC9 ⟨["Qty"], [[Cell.str "0"], [Cell.str "0"]]⟩ [] [] "Qty" rfl (by decide) (by decide)
    (by decide) (by decide) (by decide)

/-! ## Claims C8 and C10: small tables and empty input -/

theorem allItemsFrom_set :
    ∀ (dfs : List DataFrame) (i k : Nat) (df df2 : DataFrame),
      dfs[k]? = some df → df.rows.length < 2 → df2.rows.length < 2 →
      allItemsFrom i (dfs.set k df2) = allItemsFrom i dfs := by
  intro dfs
  induction dfs with
  | nil =>
    intro i k df df2 hget _ _
    cases hget
  | cons d rest ih =>
    intro i k df df2 hget h1 h2
    cases k with
    | zero =>
      rw [List.getElem?_cons_zero] at hget
      have hd : d = df := by injection hget
      rw [List.set_cons_zero, allItemsFrom, allItemsFrom,
        if_pos h2, if_pos (hd ▸ h1)]
    | succ k =>
      rw [List.getElem?_cons_succ] at hget
      rw [List.set_cons_succ, allItemsFrom, allItemsFrom,
        ih (i + 1) k df df2 hget h1 h2]

/-- C10.  Tables with fewer than 2 rows are skipped entirely: replacing
any such table of the input by any other table with fewer than 2 rows —
whatever its columns and cells — leaves the returned line items
unchanged, so no row of a 0- or 1-row table ever appears among them. -/
theorem claimC10 (dfs : List DataFrame) (k : Nat) (df df2 : DataFrame)
    (hget : dfs[k]? = some df) (h1 : df.rows.length < 2) (h2 : df2.rows.length < 2) :
    process_line_items (dfs.set k df2) = process_line_items dfs := by
  have h := allItemsFrom_set dfs 0 k df df2 hget h1 h2
  simp only [process_line_items, allItems]
  rw [h]

/-- C10 witness: replacing a 1-row table by an unrelated empty one does
not change the output next to a real table. -/
theorem claimC10_witness :
    process_line_items
        ([⟨["A"], [[Cell.str "x"]]⟩,
          ⟨["Product"], [[Cell.str "p"], [Cell.str "q"]]⟩].set 0 ⟨["B"], []⟩) =
      process_line_items
        [⟨["A"], [[Cell.str "x"]]⟩, ⟨["Product"], [[Cell.str "p"], [Cell.str "q"]]⟩] :=
  claimC10 [⟨["A"], [[Cell.str "x"]]⟩, ⟨["Product"], [[Cell.str "p"], [Cell.str "q"]]⟩]
    0 ⟨["A"], [[Cell.str "x"]]⟩ ⟨["B"], []⟩ rfl (by decide) (by decide)

/-! ## Lemmas about the CSV encoder and parser -/

theorem parseSt_nil (st : Nat) (acc : List Char) :
    parseLineSt st [] acc = [acc.reverse] := by
  match st with
  | 0 => rfl
  | 1 => rfl
  | _ + 2 => rfl

theorem parseSt0_cons (c : Char) (cs acc : List Char) :
    parseLineSt 0 (c :: cs) acc =
      if c = ',' then acc.reverse :: parseLineSt 0 cs []
      else if c = '"' then parseLineSt 1 cs acc
      else parseLineSt 0 cs (c :: acc) := rfl

theorem parseSt1_cons (c : Char) (cs acc : List Char) :
    parseLineSt 1 (c :: cs) acc =
      if c = '"' then parseLineSt 2 cs acc
      else parseLineSt 1 cs (c :: acc) := rfl

theorem parseSt2_cons (c : Char) (cs acc : List Char) :
    parseLineSt 2 (c :: cs) acc =
      if c = '"' then parseLineSt 1 cs ('"' :: acc)
      else if c = ',' then acc.reverse :: parseLineSt 0 cs []
      else parseLineSt 0 cs (c :: acc) := rfl

theorem escQ_cons_quote (f : List Char) : escQ ('"' :: f) = '"' :: '"' :: escQ f := by
  simp [escQ]

theorem escQ_cons_other (c : Char) (f : List Char) (h : ¬c = '"') :
    escQ (c :: f) = c :: escQ f := by
  simp [escQ, h]

/-- Reading escaped quoted content: the scanner consumes the doubled
quotes of `escQ f` and the closing quote, accumulating exactly `f`. -/
theorem parseSt1_escQ :
    ∀ (f rest acc : List Char),
      parseLineSt 1 (escQ f ++ '"' :: rest) acc = parseLineSt 2 rest (f.reverse ++ acc) := by
  intro f
  induction f with
  | nil =>
    intro rest acc
    simp only [escQ, List.nil_append, List.reverse_nil]
    rw [parseSt1_cons]
    simp
  | cons c f2 ih =>
    intro rest acc
    by_cases hc : c = '"'
    · subst hc
      rw [escQ_cons_quote, List.cons_append, List.cons_append, parseSt1_cons, if_pos rfl,
        parseSt2_cons, if_pos rfl, ih rest ('"' :: acc)]
      simp
    · rw [escQ_cons_other c f2 hc, List.cons_append, parseSt1_cons, if_neg hc,
        ih rest (c :: acc)]
      simp

/-- Reading a plain stretch with no delimiter and no quote just
accumulates it. -/
theorem parseSt0_plain :
    ∀ (f rest acc : List Char), (∀ c ∈ f, ¬(c = ',' ∨ c = '"')) →
      parseLineSt 0 (f ++ rest) acc = parseLineSt 0 rest (f.reverse ++ acc) := by
  intro f
  induction f with
  | nil =>
    intro rest acc _
    simp
  | cons c f2 ih =>
    intro rest acc h
    have hc := h c (List.mem_cons_self _ _)
    push_neg at hc
    simp only [List.cons_append]
    rw [parseSt0_cons]
    simp only [if_neg hc.1, if_neg hc.2]
    rw [ih rest (c :: acc) (fun x hx => h x (List.mem_cons_of_mem _ hx))]
    simp

theorem encodeLine_single (f : List Char) : encodeLine [f] = encodeField f := rfl

theorem encodeLine_cons (f g : List Char) (fs : List (List Char)) :
    encodeLine (f :: g :: fs) = encodeField f ++ ',' :: encodeLine (g :: fs) := rfl

theorem noQuote_fields {f : List Char} (h : needsQuote f = false) :
    ∀ c ∈ f, ¬(c = ',' ∨ c = '"') := by
  intro c hc
  rw [needsQuote, List.any_eq_false] at h
  have := h c hc
  simp only [Bool.or_eq_true, decide_eq_true_eq, not_or] at this
  tauto

/-- The record scanner inverts the record encoder. -/
theorem parseLine_encode :
    ∀ fs : List (List Char), fs ≠ [] → parseLineSt 0 (encodeLine fs) [] = fs := by
  intro fs
  induction fs with
  | nil => intro h; exact absurd rfl h
  | cons f rest ih =>
    intro _
    cases rest with
    | nil =>
      rw [encodeLine_single, encodeField]
      by_cases hq : needsQuote f = true
      · rw [if_pos hq, parseSt0_cons, if_neg (by decide), if_pos rfl,
          show (escQ f ++ ['"'] : List Char) = escQ f ++ '"' :: [] from rfl,
          parseSt1_escQ f [] [], parseSt_nil]
        simp
      · have hq2 : needsQuote f = false := by simpa using hq
        rw [if_neg hq, show (f : List Char) = f ++ [] from (List.append_nil f).symm,
          parseSt0_plain f [] [] (noQuote_fields hq2), parseSt_nil]
        simp
    | cons g fs2 =>
      rw [encodeLine_cons, encodeField]
      by_cases hq : needsQuote f = true
      · rw [if_pos hq]
        have hshape : (('"' :: (escQ f ++ ['"'])) ++ ',' :: encodeLine (g :: fs2) : List Char) =
            '"' :: (escQ f ++ '"' :: (',' :: encodeLine (g :: fs2))) := by
          simp
        rw [hshape, parseSt0_cons, if_neg (by decide), if_pos rfl,
          parseSt1_escQ f (',' :: encodeLine (g :: fs2)) [], parseSt2_cons,
          if_neg (by decide), if_pos rfl, ih (by simp)]
        simp
      · have hq2 : needsQuote f = false := by simpa using hq
        rw [if_neg hq,
          parseSt0_plain f (',' :: encodeLine (g :: fs2)) [] (noQuote_fields hq2),
          parseSt0_cons, if_pos rfl, ih (by simp)]
        simp

/-- Splitting at the first newline after a newline-free stretch. -/
theorem splitLines_append (l rest : List Char) (h : ∀ c ∈ l, ¬c = '\n') :
    splitLines (l ++ '\n' :: rest) = l :: splitLines rest := by
  induction l with
  | nil =>
    rw [List.nil_append, splitLines, if_pos rfl]
  | cons c l2 ih =>
    have hc := h c (List.mem_cons_self _ _)
    rw [List.cons_append, splitLines, if_neg hc,
      ih (fun x hx => h x (List.mem_cons_of_mem _ hx))]

theorem escQ_subset {f : List Char} {c : Char} :
    c ∈ escQ f → c ∈ f ∨ c = '"' := by
  induction f with
  | nil => intro hc; cases hc
  | cons a f2 ih =>
    intro hc
    by_cases ha : a = '"'
    · subst ha
      rw [escQ_cons_quote] at hc
      rcases List.mem_cons.mp hc with h1 | hc2
      · exact Or.inr h1
      · rcases List.mem_cons.mp hc2 with h1 | hc3
        · exact Or.inr h1
        · rcases ih hc3 with h1 | h1
          · exact Or.inl (List.mem_cons_of_mem _ h1)
          · exact Or.inr h1
    · rw [escQ_cons_other a f2 ha] at hc
      rcases List.mem_cons.mp hc with h1 | hc2
      · exact Or.inl (h1 ▸ List.mem_cons_self _ _)
      · rcases ih hc2 with h1 | h1
        · exact Or.inl (List.mem_cons_of_mem _ h1)
        · exact Or.inr h1

theorem encodeField_no_nl {f : List Char} (h : ∀ c ∈ f, ¬c = '\n') :
    ∀ c ∈ encodeField f, ¬c = '\n' := by
  intro c hc
  rw [encodeField] at hc
  by_cases hq : needsQuote f = true
  · rw [if_pos hq] at hc
    rcases List.mem_cons.mp hc with h1 | hc2
    · subst h1; decide
    · rcases List.mem_append.mp hc2 with h1 | h1
      · rcases escQ_subset h1 with h2 | h2
        · exact h c h2
        · subst h2; decide
      · simp only [List.mem_singleton] at h1
        subst h1; decide
  · rw [if_neg hq] at hc
    exact h c hc

theorem encodeLine_no_nl :
    ∀ fs : List (List Char), (∀ f ∈ fs, ∀ c ∈ f, ¬c = '\n') →
      ∀ c ∈ encodeLine fs, ¬c = '\n' := by
  intro fs
  induction fs with
  | nil => intro _ c hc; cases hc
  | cons f rest ih =>
    intro h c hc
    cases rest with
    | nil =>
      rw [encodeLine_single] at hc
      exact encodeField_no_nl (h f (List.mem_cons_self _ _)) c hc
    | cons g fs2 =>
      rw [encodeLine_cons] at hc
      rcases List.mem_append.mp hc with h1 | h1
      · exact encodeField_no_nl (h f (List.mem_cons_self _ _)) c h1
      · rcases List.mem_cons.mp h1 with h2 | h2
        · subst h2; decide
        · exact ih (fun x hx => h x (List.mem_cons_of_mem _ hx)) c h2

theorem ofNat_digit (d : Nat) (h : d < 10) : (Char.ofNat (48 + d)).isDigit = true := by
  interval_cases d <;> decide

theorem natDigsAux_digit :
    ∀ (fuel n : Nat), ∀ c ∈ natDigsAux fuel n, c.isDigit = true := by
  intro fuel
  induction fuel with
  | zero => intro n c hc; cases hc
  | succ fuel ih =>
    intro n c hc
    rw [natDigsAux] at hc
    by_cases h : n < 10
    · rw [if_pos h] at hc
      simp only [List.mem_singleton] at hc
      subst hc
      exact ofNat_digit n h
    · rw [if_neg h] at hc
      rcases List.mem_append.mp hc with h1 | h1
      · exact ih (n / 10) c h1
      · simp only [List.mem_singleton] at h1
        subst h1
        exact ofNat_digit (n % 10) (Nat.mod_lt n (by norm_num))

theorem digit_no_nl {c : Char} (h : c.isDigit = true) : ¬c = '\n' := by
  intro he
  subst he
  cases h

theorem natToStr_no_nl (n : Nat) : ∀ c ∈ (natToStr n).data, ¬c = '\n' := by
  intro c hc
  exact digit_no_nl (natDigsAux_digit (n + 1) n c hc)

theorem intToStr_no_nl (i : Int) : ∀ c ∈ (intToStr i).data, ¬c = '\n' := by
  intro c hc
  rw [intToStr] at hc
  by_cases h : i < 0
  · rw [if_pos h] at hc
    rcases List.mem_cons.mp hc with h1 | h1
    · subst h1; decide
    · exact natToStr_no_nl i.natAbs c h1
  · rw [if_neg h] at hc
    exact natToStr_no_nl i.natAbs c hc

theorem qtyCell_no_nl (q : QtyResult) : ∀ c ∈ (qtyCell q).data, ¬c = '\n' := by
  intro c hc
  cases q with
  | num i => exact intToStr_no_nl i c hc
  | unable =>
    rw [qtyCell] at hc
    have hall : ∀ x ∈ "Unable to calculate".data, ¬x = '\n' := by decide
    exact hall c hc

theorem map_mk_data (l : List String) : (l.map String.data).map String.mk = l := by
  rw [List.map_map]
  have h : (String.mk ∘ String.data) = id := funext fun s => rfl
  rw [h, List.map_id]

/-! ## Claim C4: the summary survives a CSV round trip -/

/-- C4.  For every order summary the program can produce — the
customer-name and date fields never contain line breaks, since the
capture groups exclude them, and the two totals print as digits or as
the `"Unable to calculate"` sentinel — serialising the summary to CSV
with a header row and re-parsing that CSV yields exactly the header and
the same four field values. -/
theorem claimC4 (s : OrderSummary)
    (h1 : '\n' ∉ s.customerName.data) (h2 : '\r' ∉ s.customerName.data)
    (h3 : '\n' ∉ s.orderDate.data) (h4 : '\r' ∉ s.orderDate.data) :
    parseCsv (summaryToCsv s) = [summaryHeader, summaryFields s] := by
  have hHnl : ∀ c ∈ encodeLine (summaryHeader.map String.data), ¬c = '\n' :=
    encodeLine_no_nl _ (by decide)
  have hfields : ∀ f ∈ (summaryFields s).map String.data, ∀ c ∈ f, ¬c = '\n' := by
    intro f hf
    simp only [summaryFields, List.map_cons, List.map_nil] at hf
    rcases List.mem_cons.mp hf with h | hf2
    · intro c hc he
      exact h1 (he ▸ h ▸ hc)
    · rcases List.mem_cons.mp hf2 with h | hf3
      · intro c hc he
        exact h3 (he ▸ h ▸ hc)
      · rcases List.mem_cons.mp hf3 with h | hf4
        · intro c hc
          exact natToStr_no_nl s.totalProducts c (h ▸ hc)
        · rcases List.mem_cons.mp hf4 with h | hf5
          · intro c hc
            exact qtyCell_no_nl s.totalQuantity c (h ▸ hc)
          · cases hf5
  have hFnl : ∀ c ∈ encodeLine ((summaryFields s).map String.data), ¬c = '\n' :=
    encodeLine_no_nl _ hfields
  simp only [parseCsv, summaryToCsv]
  rw [splitLines_append _ _ hHnl,
    show (encodeLine ((summaryFields s).map String.data) ++ ['\n'] : List Char) =
      encodeLine ((summaryFields s).map String.data) ++ '\n' :: [] from rfl,
    splitLines_append _ _ hFnl]
  rw [show splitLines ([] : List Char) = [[]] from rfl]
  have hlast : ([encodeLine (List.map String.data summaryHeader),
      encodeLine (List.map String.data (summaryFields s)), []] :
      List (List Char)).getLast? = some [] := rfl
  rw [if_pos hlast]
  simp only [List.dropLast, List.map_cons, List.map_nil]
  rw [parseLine, parseLine_encode (summaryHeader.map String.data) (by decide),
    parseLine, parseLine_encode ((summaryFields s).map String.data) (by simp [summaryFields]),
    map_mk_data, map_mk_data]

/-- C4 witness: a name containing the delimiter and quotes survives the
round trip. -/
theorem claimC4_witness :
    parseCsv (summaryToCsv ⟨"Jane, \"VIP\" Doe", "1/2/2024", 3, QtyResult.num 10⟩) =
      [summaryHeader, summaryFields ⟨"Jane, \"VIP\" Doe", "1/2/2024", 3, QtyResult.num 10⟩] :=
  claimC4 ⟨"Jane, \"VIP\" Doe", "1/2/2024", 3, QtyResult.num 10⟩
    (by decide) (by decide) (by decide) (by decide)
